import Mathlib

/-!
Shallow embedding of the `LandRegistry` Solidity contract
(`src/contracts/contracts/LandRegistry.sol`) and verification of the
specification's claims about it.

Modelling conventions:
* Ethereum addresses are `Nat` (0 plays the role of `address(0)`).
* `block.timestamp` and `msg.sender` / `msg.value` are explicit parameters
  (`now`, `sender`, `msgValue`) of each entry point.
* Solidity mappings are total functions with the zero-initialised struct as
  default; `require` failures / reverts are `Except.error` (a revert leaves
  the pre-state intact, which the `Except` encoding captures by not
  producing a state at all).
* The contract's ether balance and the outgoing low-level value transfers
  (`call{value: ...}`) are tracked in `balance` / `transfersOut`; in the
  model a recipient always accepts payment, as `require(success)` assumes.
* OpenZeppelin `AccessControl` role membership is one Boolean map per role
  that the contract actually grants; `Pausable` is the `paused` Boolean;
  `nonReentrant` needs no counterpart because the model is single-threaded
  (no nested mutating call is representable).
* Error constructors follow the specification's error taxonomy; each use
  site mirrors one specific `require` of the source, in source order.
-/

namespace LandRegistry

/-- Property status enum of the contract (declaration order preserved). -/
inductive PropertyStatus where
  | Pending
  | Approved
  | Rejected
  | ListedForSale
  | SaleInProgress
  | Sold
deriving DecidableEq, Repr

/-- Transaction status enum of the contract (declaration order preserved). -/
inductive TransactionStatus where
  | Pending
  | Approved
  | Rejected
  | Completed
  | Cancelled
deriving DecidableEq, Repr

/-- Error taxonomy; every constructor corresponds to a class of `require`
messages in the source (see each operation). -/
inductive Err where
  | paused
  | unauthorized
  | notFound
  | inactive
  | invalidState
  | invalidInput
  | insufficientFunds
  | belowMarketValue
  | selfTrade
  | alreadyRegistered
deriving DecidableEq, Repr

/-- The `Property` struct. -/
structure Property where
  id : Nat
  state : String
  district : String
  village : String
  surveyNumber : String
  owner : Nat
  marketValue : Nat
  propertyIdStr : String
  ipfsHash : String
  status : PropertyStatus
  registeredAt : Nat
  lastUpdated : Nat
  isActive : Bool
deriving DecidableEq, Repr

/-- The `Transaction` struct. -/
structure Transaction where
  id : Nat
  propertyId : Nat
  seller : Nat
  buyer : Nat
  price : Nat
  status : TransactionStatus
  requestedAt : Nat
  completedAt : Nat
  ipfsHash : String
deriving DecidableEq, Repr

/-- Zero-initialised `Property` (Solidity mapping default). -/
def emptyProperty : Property :=
  ⟨0, "", "", "", "", 0, 0, "", "", .Pending, 0, 0, false⟩

/-- Zero-initialised `Transaction` (Solidity mapping default). -/
def emptyTransaction : Transaction :=
  ⟨0, 0, 0, 0, 0, .Pending, 0, 0, ""⟩

/-- Pointwise map update (Solidity mapping assignment). -/
def upd {β : Type} (m : Nat → β) (k : Nat) (v : β) : Nat → β :=
  fun x => if x = k then v else m x

/-- The whole contract storage plus the ether-flow ledger of the model. -/
structure LRState where
  propertyIds : Nat
  transactionIds : Nat
  properties : Nat → Property
  transactions : Nat → Transaction
  ownerProperties : Nat → List Nat
  propertyTransactions : Nat → List Nat
  registeredUsers : Nat → Bool
  userRoles : Nat → String
  hasSuperadminRole : Nat → Bool
  hasGovernmentRole : Nat → Bool
  hasPropertyOwnerRole : Nat → Bool
  paused : Bool
  balance : Nat
  transfersOut : List (Nat × Nat)

/-- Constructor: deployer gets `SUPERADMIN_ROLE` and is registered. -/
def initialState (deployer : Nat) : LRState where
  propertyIds := 0
  transactionIds := 0
  properties := fun _ => emptyProperty
  transactions := fun _ => emptyTransaction
  ownerProperties := fun _ => []
  propertyTransactions := fun _ => []
  registeredUsers := upd (fun _ => false) deployer true
  userRoles := upd (fun _ => "") deployer ("Superadmin")
  hasSuperadminRole := upd (fun _ => false) deployer true
  hasGovernmentRole := fun _ => false
  hasPropertyOwnerRole := fun _ => false
  paused := false
  balance := 0
  transfersOut := []

/-- A successful low-level `call{value: amount}` to `recipient`. -/
def sendValue (recipient amount : Nat) (s : LRState) : LRState :=
  { s with balance := s.balance - amount
           transfersOut := s.transfersOut ++ [(recipient, amount)] }

/-- The roles the contract grants through `registerUser`. -/
inductive Role where
  | superadmin
  | government
  | propertyOwner
  | legal
deriving DecidableEq, Repr

/-- Source `registerUser`: Superadmin-only registration of a user with a role.
(The source's `_role != bytes32(0)` check is vacuous for the four role
constants, which the `Role` type enumerates.) -/
def registerUser (sender user : Nat) (role : Role) (roleName : String)
    (s : LRState) : Except Err LRState :=
  if s.hasSuperadminRole sender then
    if s.registeredUsers user then .error .alreadyRegistered
    else
      let s1 := { s with registeredUsers := upd s.registeredUsers user true
                         userRoles := upd s.userRoles user roleName }
      .ok (match role with
        | .superadmin => { s1 with hasSuperadminRole := upd s1.hasSuperadminRole user true }
        | .government => { s1 with hasGovernmentRole := upd s1.hasGovernmentRole user true }
        | .propertyOwner => { s1 with hasPropertyOwnerRole := upd s1.hasPropertyOwnerRole user true }
        | .legal => s1)
  else .error .unauthorized

/-- Source `pause`: Superadmin-only; `_pause` reverts when already paused. -/
def pauseContract (sender : Nat) (s : LRState) : Except Err LRState :=
  if s.hasSuperadminRole sender then
    if s.paused then .error .paused
    else .ok { s with paused := true }
  else .error .unauthorized

/-- Source `unpause`: Superadmin-only; `_unpause` reverts when not paused. -/
def unpauseContract (sender : Nat) (s : LRState) : Except Err LRState :=
  if s.hasSuperadminRole sender then
    if s.paused then .ok { s with paused := false }
    else .error .invalidState
  else .error .unauthorized

/-- Source `registerProperty`: guarded by `whenNotPaused`, then the six input
`require`s in source order; allocates the next id, stores the property,
appends to the owner index and auto-registers the owner. Returns the new
id alongside the state, as the source returns `newPropertyId`. -/
def registerProperty (_sender now : Nat)
    (st dist vill survey : String) (owner marketValue : Nat) (ipfs : String)
    (s : LRState) : Except Err (LRState × Nat) :=
  if s.paused then .error .paused
  else if st.length = 0 then .error .invalidInput
  else if dist.length = 0 then .error .invalidInput
  else if vill.length = 0 then .error .invalidInput
  else if survey.length = 0 then .error .invalidInput
  else if owner = 0 then .error .invalidInput
  else if marketValue = 0 then .error .invalidInput
  else
    let newId := s.propertyIds + 1
    let uniqueId :=
      st ++ "-" ++ dist ++ "-" ++ vill ++ "-" ++ survey ++ "-" ++ toString newId
    let p : Property :=
      ⟨newId, st, dist, vill, survey, owner, marketValue, uniqueId, ipfs,
        .Pending, now, now, true⟩
    let s1 := { s with propertyIds := newId
                       properties := upd s.properties newId p
                       ownerProperties :=
                         upd s.ownerProperties owner (s.ownerProperties owner ++ [newId]) }
    let s2 :=
      if s1.registeredUsers owner then s1
      else { s1 with registeredUsers := upd s1.registeredUsers owner true
                     userRoles := upd s1.userRoles owner ("Property Owner")
                     hasPropertyOwnerRole := upd s1.hasPropertyOwnerRole owner true }
    .ok (s2, newId)

/- `_sender` is unused by `registerProperty` in the source too: the function
has no role modifier; anyone may submit a registration. -/

/-- Source `approveProperty`: `onlyRole(SUPERADMIN_ROLE)` then `validProperty`
then the `Pending` check.  Note: there is NO `whenNotPaused` modifier on
this function in the source. -/
def approveProperty (sender now pid : Nat) (approve : Bool)
    (s : LRState) : Except Err LRState :=
  if s.hasSuperadminRole sender then
    if (s.properties pid).id = 0 then .error .notFound
    else if (s.properties pid).isActive then
      let p := s.properties pid
      if p.status = .Pending then
        let p1 := if approve then { p with status := .Approved }
                  else { p with status := .Rejected, isActive := false }
        .ok { s with properties := upd s.properties pid { p1 with lastUpdated := now } }
      else .error .invalidState
    else .error .inactive
  else .error .unauthorized

/-- Source `listPropertyForSale`: modifier order `whenNotPaused`,
(`nonReentrant`,) `onlyPropertyOwner`, `validProperty`; body requires
status `Approved` and a positive price.  The price is only validated: the
source stores nothing but emits it in an event. -/
def listPropertyForSale (sender now pid price : Nat)
    (s : LRState) : Except Err LRState :=
  if s.paused then .error .paused
  else if (s.properties pid).owner = sender then
    if (s.properties pid).id = 0 then .error .notFound
    else if (s.properties pid).isActive then
      let p := s.properties pid
      if p.status = .Approved then
        if price = 0 then .error .invalidInput
        else
          let p1 := { p with status := PropertyStatus.ListedForSale, lastUpdated := now }
          .ok { s with properties := upd s.properties pid p1 }
      else .error .invalidState
    else .error .inactive
  else .error .unauthorized

/-- Source `requestToPurchase` (payable): `whenNotPaused`, `validProperty`, then
the four body requires in source order; credits `msg.value` to the
contract balance, allocates the next transaction id, records the
transaction with the current owner snapshotted as seller, appends to the
per-property transaction list and drives the property to
`SaleInProgress`. -/
def requestToPurchase (sender now msgValue pid price : Nat) (ipfs : String)
    (s : LRState) : Except Err LRState :=
  if s.paused then .error .paused
  else if (s.properties pid).id = 0 then .error .notFound
  else if (s.properties pid).isActive then
    let p := s.properties pid
    if p.status = .ListedForSale then
      if p.owner = sender then .error .selfTrade
      else if msgValue < price then .error .insufficientFunds
      else if price < p.marketValue then .error .belowMarketValue
      else
        let newId := s.transactionIds + 1
        let tx : Transaction :=
          ⟨newId, pid, p.owner, sender, price, .Pending, now, 0, ipfs⟩
        .ok { s with
          balance := s.balance + msgValue
          transactionIds := newId
          transactions := upd s.transactions newId tx
          propertyTransactions :=
            upd s.propertyTransactions pid (s.propertyTransactions pid ++ [newId])
          properties :=
            upd s.properties pid { p with status := .SaleInProgress, lastUpdated := now } }
    else .error .invalidState
  else .error .inactive

/-- Bookkeeping of the reject branch of `processPurchaseRequest` up to the
point of the external refund call: transaction marked `Rejected`, property
back to `ListedForSale`.  `completedAt` / `lastUpdated` are NOT yet
written here: the source writes them after the refund. -/
def processRejectBook (tid : Nat) (s : LRState) : LRState :=
  let tx := s.transactions tid
  { s with
    transactions := upd s.transactions tid { tx with status := .Rejected }
    properties := upd s.properties tx.propertyId
      { s.properties tx.propertyId with status := .ListedForSale } }

/-- The trailing writes of `processPurchaseRequest` (both branches):
`transaction.completedAt = block.timestamp` and
`property.lastUpdated = block.timestamp`. -/
def processFinish (now tid : Nat) (s : LRState) : LRState :=
  let tx := s.transactions tid
  { s with
    transactions := upd s.transactions tid { tx with completedAt := now }
    properties := upd s.properties tx.propertyId
      { s.properties tx.propertyId with lastUpdated := now } }

/-- Bookkeeping of the approve branch: transaction marked `Approved`. -/
def processApproveBook (tid : Nat) (s : LRState) : LRState :=
  let tx := s.transactions tid
  { s with transactions := upd s.transactions tid { tx with status := .Approved } }

/-- Source `processPurchaseRequest`: `whenNotPaused`, `validTransaction`, seller
check, `Pending` check; approve branch sets `Approved`; reject branch sets
`Rejected`, reverts the property to `ListedForSale` and refunds
`transaction.price` (not the escrowed `msg.value`!) to the buyer; both
branches then stamp `completedAt` and `lastUpdated`. -/
def processPurchaseRequest (sender now tid : Nat) (approve : Bool)
    (s : LRState) : Except Err LRState :=
  if s.paused then .error .paused
  else if (s.transactions tid).id = 0 then .error .notFound
  else
    let tx := s.transactions tid
    if tx.seller = sender then
      if tx.status = .Pending then
        if approve then .ok (processFinish now tid (processApproveBook tid s))
        else .ok (processFinish now tid
          (sendValue tx.buyer tx.price (processRejectBook tid s)))
      else .error .invalidState
    else .error .unauthorized

/-- The state visible at the moment the reject branch of
`processPurchaseRequest` performs its external refund call (same guards as
the full function; defined only to reason about effect ordering). -/
def processRejectAtTransfer (sender _now tid : Nat)
    (s : LRState) : Except Err LRState :=
  if s.paused then .error .paused
  else if (s.transactions tid).id = 0 then .error .notFound
  else
    let tx := s.transactions tid
    if tx.seller = sender then
      if tx.status = .Pending then .ok (processRejectBook tid s)
      else .error .invalidState
    else .error .unauthorized

/- `now` is unused by `processRejectAtTransfer`: the timestamp writes all
happen after the refund call in the source. -/

/-- First occurrence index, mirroring the source's linear scan with
`break` in `completePurchase`. -/
def findFirstIndex (a : Nat) : List Nat → Option Nat
  | [] => none
  | x :: xs => if x = a then some 0 else (findFirstIndex a xs).map (· + 1)

/-- Swap-with-last removal of the first occurrence of `a`, exactly as the
source loop does it: overwrite the found slot with the last element, then
`pop` the last element; a miss leaves the list unchanged. -/
def swapPopRemove (a : Nat) (l : List Nat) : List Nat :=
  match findFirstIndex a l with
  | none => l
  | some i => (l.set i (l.getD (l.length - 1) 0)).dropLast

/-- Bookkeeping of `completePurchase` up to the point of the external
payment call, in source order: swap-pop the property out of the old
owner's index, transfer ownership / market value / status `Approved` /
`lastUpdated`, append to the buyer's index, auto-register the buyer.  The
transaction's own `status` / `completedAt` are NOT yet written: the source
writes them after the payment. -/
def completePurchaseBook (now tid : Nat) (s : LRState) : LRState :=
  let tx := s.transactions tid
  let pid := tx.propertyId
  let p := s.properties pid
  let removed := swapPopRemove pid (s.ownerProperties p.owner)
  let s1 := { s with ownerProperties := upd s.ownerProperties p.owner removed }
  let p1 := { p with owner := tx.buyer, marketValue := tx.price,
                     status := PropertyStatus.Approved, lastUpdated := now }
  let s2 := { s1 with properties := upd s1.properties pid p1 }
  let pushed := s2.ownerProperties tx.buyer ++ [pid]
  let s3 := { s2 with ownerProperties := upd s2.ownerProperties tx.buyer pushed }
  if s3.registeredUsers tx.buyer then s3
  else { s3 with registeredUsers := upd s3.registeredUsers tx.buyer true
                 userRoles := upd s3.userRoles tx.buyer ("Property Owner")
                 hasPropertyOwnerRole := upd s3.hasPropertyOwnerRole tx.buyer true }

/-- The trailing writes of `completePurchase`: the transaction is marked
`Completed` and stamped, after the payment. -/
def completePurchaseFinish (now tid : Nat) (s : LRState) : LRState :=
  let tx := s.transactions tid
  let tx1 := { tx with status := TransactionStatus.Completed, completedAt := now }
  { s with transactions := upd s.transactions tid tx1 }

/-- Source `completePurchase`: `whenNotPaused`, `validTransaction`, `Approved`
check, buyer check (in that source order); then bookkeeping, payment of
`transaction.price` to the seller, and finally the `Completed` marking.
Note: no check of the referenced property's status or `isActive` flag. -/
def completePurchase (sender now tid : Nat)
    (s : LRState) : Except Err LRState :=
  if s.paused then .error .paused
  else if (s.transactions tid).id = 0 then .error .notFound
  else
    let tx := s.transactions tid
    if tx.status = .Approved then
      if tx.buyer = sender then
        .ok (completePurchaseFinish now tid
          (sendValue tx.seller tx.price (completePurchaseBook now tid s)))
      else .error .unauthorized
    else .error .invalidState

/-- The state visible at the moment `completePurchase` performs its
external payment call (same guards; for effect-ordering reasoning). -/
def completePurchaseAtTransfer (sender now tid : Nat)
    (s : LRState) : Except Err LRState :=
  if s.paused then .error .paused
  else if (s.transactions tid).id = 0 then .error .notFound
  else
    let tx := s.transactions tid
    if tx.status = .Approved then
      if tx.buyer = sender then .ok (completePurchaseBook now tid s)
      else .error .unauthorized
    else .error .invalidState

/-- Source `updatePropertyDocuments`: `onlyPropertyOwner`, `validProperty`; no
`whenNotPaused` modifier in the source. -/
def updatePropertyDocuments (sender now pid : Nat) (ipfs : String)
    (s : LRState) : Except Err LRState :=
  if (s.properties pid).owner = sender then
    if (s.properties pid).id = 0 then .error .notFound
    else if (s.properties pid).isActive then
      let p1 := { s.properties pid with ipfsHash := ipfs, lastUpdated := now }
      .ok { s with properties := upd s.properties pid p1 }
    else .error .inactive
  else .error .unauthorized

/-- Source `removeFromSale`: `onlyPropertyOwner`, `validProperty`, then the
status-in-{ListedForSale, SaleInProgress} check; no `whenNotPaused`
modifier in the source.  Sets the status back to `Approved`. -/
def removeFromSale (sender now pid : Nat)
    (s : LRState) : Except Err LRState :=
  if (s.properties pid).owner = sender then
    if (s.properties pid).id = 0 then .error .notFound
    else if (s.properties pid).isActive then
      let p := s.properties pid
      if p.status = .ListedForSale ∨ p.status = .SaleInProgress then
        let p1 := { p with status := PropertyStatus.Approved, lastUpdated := now }
        .ok { s with properties := upd s.properties pid p1 }
      else .error .invalidState
    else .error .inactive
  else .error .unauthorized

/-- Source `getProperty` (view). -/
def getProperty (pid : Nat) (s : LRState) : Except Err Property :=
  if (s.properties pid).id = 0 then .error .notFound
  else .ok (s.properties pid)

/-- Source `getOwnerProperties` (view). -/
def getOwnerProperties (owner : Nat) (s : LRState) : List Nat :=
  s.ownerProperties owner

/-- Source `getTransaction` (view). -/
def getTransaction (tid : Nat) (s : LRState) : Except Err Transaction :=
  if (s.transactions tid).id = 0 then .error .notFound
  else .ok (s.transactions tid)

/-- Source `getTotalProperties` (view). -/
def getTotalProperties (s : LRState) : Nat :=
  s.propertyIds

/-! ## Concrete executions

Addresses: `1` deployer/superadmin, `2` Alice (original owner / seller),
`3` Bob (buyer), `4` Carol (second buyer), `5` a Government-role user.
Timestamps are arbitrary positive literals. -/

/-- Deployed contract, deployer `1`. -/
def st0 : LRState := initialState 1

/-- Extract the state of a successful step (defaulting to `st0`; every
theorem about these states separately asserts the facts it needs, so the
default can never silently stand in for a successful run). -/
def runD (e : Except Err LRState) : LRState := e.toOption.getD st0

/-- Property 1 registered to Alice at market value 100. -/
def stReg : LRState :=
  runD ((registerProperty 2 10 "KA" "BLR" "V1" "SN1" 2 100 "h1" st0).map Prod.fst)

/-- Property 1 approved by the superadmin. -/
def stApp : LRState := runD (approveProperty 1 11 1 true stReg)

/-- Property 1 listed for sale by Alice at 150. -/
def stListed : LRState := runD (listPropertyForSale 2 12 1 150 stApp)

/-- Bob requests purchase at price 150 escrowing exactly 150
(transaction 1). -/
def stRequested : LRState := runD (requestToPurchase 3 13 150 1 150 "h2" stListed)

/-- Alice approves transaction 1. -/
def stTxApproved : LRState := runD (processPurchaseRequest 2 14 1 true stRequested)

/-- Bob completes the purchase of property 1. -/
def stDone : LRState := runD (completePurchase 3 15 1 stTxApproved)

/-- System paused (by the superadmin) while property 1 is listed. -/
def stPaused : LRState := runD (pauseContract 1 stListed)

/-- Bob requests purchase at price 150 but escrows 200 (transaction 1). -/
def stReq200 : LRState := runD (requestToPurchase 3 13 200 1 150 "h2" stListed)

/-- Alice rejects the over-escrowed transaction 1. -/
def stRej200 : LRState := runD (processPurchaseRequest 2 14 1 false stReq200)

/-- Alice removes property 1 from sale while transaction 1 is Pending. -/
def stRm : LRState := runD (removeFromSale 2 15 1 stRequested)

/-- Alice relists property 1 at 150 (transaction 1 still Pending). -/
def stRelist : LRState := runD (listPropertyForSale 2 16 1 150 stRm)

/-- Carol also requests purchase (transaction 2), while transaction 1 is
still Pending. -/
def stTwoPending : LRState := runD (requestToPurchase 4 17 150 1 150 "h3" stRelist)

/-- Bob (not Carol) makes the second request (transaction 2). -/
def stTwoBob : LRState := runD (requestToPurchase 3 17 150 1 150 "h4" stRelist)

/-- Alice approves transaction 1 (Bob), then transaction 2 (also Bob). -/
def stBothApproved : LRState :=
  runD (processPurchaseRequest 2 19 2 true (runD (processPurchaseRequest 2 18 1 true stTwoBob)))

/-- Bob completes transaction 1: he now owns property 1. -/
def stBobOwns : LRState := runD (completePurchase 3 20 1 stBothApproved)

/-- Bob also completes transaction 2, buying the property he now owns. -/
def stBobRebuys : LRState := runD (completePurchase 3 21 2 stBobOwns)

/-- Government-role user 5 registered while property 1 is Pending. -/
def stGov : LRState := runD (registerUser 1 5 Role.government ("Government Official") stReg)

/-- System paused right after registration (property 1 still Pending). -/
def stPausedPending : LRState := runD (pauseContract 1 stReg)

/-- The state at the external payment call inside Bob's completion of
transaction 1. -/
def stAtTransfer : LRState := runD (completePurchaseAtTransfer 3 15 1 stTxApproved)

/-- Alice removes property 1 from sale while transaction 1 is already
Approved: the transaction is orphaned but still live. -/
def stOrphan : LRState := runD (removeFromSale 2 16 1 stTxApproved)

/-! ## Basic lemmas -/

@[simp] theorem upd_self {β : Type} (m : Nat → β) (k : Nat) (v : β) :
    upd m k v k = v := by
  simp [upd]

theorem upd_ne {β : Type} (m : Nat → β) {k x : Nat} (v : β) (h : x ≠ k) :
    upd m k v x = m x := by
  simp [upd, h]

/-- Inversion of a successful `completePurchase`: the four guards held and
the result is exactly bookkeeping, then payment, then completion
marking. -/
theorem completePurchase_ok {sender now tid : Nat} {s s' : LRState}
    (h : completePurchase sender now tid s = .ok s') :
    s.paused = false ∧ (s.transactions tid).id ≠ 0 ∧
    (s.transactions tid).status = .Approved ∧ (s.transactions tid).buyer = sender ∧
    s' = completePurchaseFinish now tid (sendValue (s.transactions tid).seller
      (s.transactions tid).price (completePurchaseBook now tid s)) := by
  unfold completePurchase at h
  split at h
  next hp => exact Except.noConfusion h
  next hp =>
    split at h
    next hid => exact Except.noConfusion h
    next hid =>
      dsimp only at h
      split at h
      next hst =>
        split at h
        next hbuy =>
          simp only [Except.ok.injEq] at h
          exact ⟨by simpa using hp, hid, hst, hbuy, h.symm⟩
        next hbuy => exact Except.noConfusion h
      next hst => exact Except.noConfusion h

/-- Inversion of a successful `completePurchaseAtTransfer`. -/
theorem completePurchaseAtTransfer_ok {sender now tid : Nat} {s s' : LRState}
    (h : completePurchaseAtTransfer sender now tid s = .ok s') :
    s.paused = false ∧ (s.transactions tid).id ≠ 0 ∧
    (s.transactions tid).status = .Approved ∧ (s.transactions tid).buyer = sender ∧
    s' = completePurchaseBook now tid s := by
  unfold completePurchaseAtTransfer at h
  split at h
  next hp => exact Except.noConfusion h
  next hp =>
    split at h
    next hid => exact Except.noConfusion h
    next hid =>
      dsimp only at h
      split at h
      next hst =>
        split at h
        next hbuy =>
          simp only [Except.ok.injEq] at h
          exact ⟨by simpa using hp, hid, hst, hbuy, h.symm⟩
        next hbuy => exact Except.noConfusion h
      next hst => exact Except.noConfusion h

/-- Inversion of a successful `requestToPurchase`: all six guards held,
and the relevant new state components. -/
theorem requestToPurchase_ok {sender now msgValue pid price : Nat}
    {ipfs : String} {s s' : LRState}
    (h : requestToPurchase sender now msgValue pid price ipfs s = .ok s') :
    s.paused = false ∧ (s.properties pid).id ≠ 0 ∧
    (s.properties pid).isActive = true ∧
    (s.properties pid).status = .ListedForSale ∧
    (s.properties pid).owner ≠ sender ∧ price ≤ msgValue ∧
    (s.properties pid).marketValue ≤ price ∧
    s'.paused = s.paused ∧ s'.balance = s.balance + msgValue ∧
    s'.transactionIds = s.transactionIds + 1 ∧
    s'.transfersOut = s.transfersOut ∧
    s'.properties pid =
      { s.properties pid with status := PropertyStatus.SaleInProgress, lastUpdated := now } ∧
    s'.transactions (s.transactionIds + 1) =
      ⟨s.transactionIds + 1, pid, (s.properties pid).owner, sender, price,
        .Pending, now, 0, ipfs⟩ := by
  unfold requestToPurchase at h
  split at h
  next hp => exact Except.noConfusion h
  next hp =>
    split at h
    next hid => exact Except.noConfusion h
    next hid =>
      split at h
      next hact =>
        dsimp only at h
        split at h
        next hst =>
          split at h
          next hown => exact Except.noConfusion h
          next hown =>
            split at h
            next hval => exact Except.noConfusion h
            next hval =>
              split at h
              next hmv => exact Except.noConfusion h
              next hmv =>
                simp only [Except.ok.injEq] at h
                subst h
                refine ⟨by simpa using hp, hid, hact, hst, hown,
                  by omega, by omega, rfl, rfl, rfl, rfl, by simp [upd], by simp [upd]⟩
        next hst => exact Except.noConfusion h
      next hact => exact Except.noConfusion h

/-- Inversion of a successful `processPurchaseRequest` with approve=true. -/
theorem processApprove_ok {sender now tid : Nat} {s s' : LRState}
    (h : processPurchaseRequest sender now tid true s = .ok s') :
    s.paused = false ∧ (s.transactions tid).id ≠ 0 ∧
    (s.transactions tid).seller = sender ∧
    (s.transactions tid).status = .Pending ∧
    s' = processFinish now tid (processApproveBook tid s) := by
  unfold processPurchaseRequest at h
  split at h
  next hp => exact Except.noConfusion h
  next hp =>
    split at h
    next hid => exact Except.noConfusion h
    next hid =>
      dsimp only at h
      split at h
      next hsell =>
        split at h
        next hst =>
          rw [if_pos rfl] at h
          simp only [Except.ok.injEq] at h
          exact ⟨by simpa using hp, hid, hsell, hst, h.symm⟩
        next hst => exact Except.noConfusion h
      next hsell => exact Except.noConfusion h

/-- Inversion of a successful `processPurchaseRequest` with approve=false
(the reject/refund branch). -/
theorem processReject_ok {sender now tid : Nat} {s s' : LRState}
    (h : processPurchaseRequest sender now tid false s = .ok s') :
    s.paused = false ∧ (s.transactions tid).id ≠ 0 ∧
    (s.transactions tid).seller = sender ∧
    (s.transactions tid).status = .Pending ∧
    s' = processFinish now tid (sendValue (s.transactions tid).buyer
      (s.transactions tid).price (processRejectBook tid s)) := by
  unfold processPurchaseRequest at h
  split at h
  next hp => exact Except.noConfusion h
  next hp =>
    split at h
    next hid => exact Except.noConfusion h
    next hid =>
      dsimp only at h
      split at h
      next hsell =>
        split at h
        next hst =>
          rw [if_neg Bool.false_ne_true] at h
          simp only [Except.ok.injEq] at h
          exact ⟨by simpa using hp, hid, hsell, hst, h.symm⟩
        next hst => exact Except.noConfusion h
      next hsell => exact Except.noConfusion h

/-- Inversion of a successful `processRejectAtTransfer`. -/
theorem processRejectAtTransfer_ok {sender now tid : Nat} {s s' : LRState}
    (h : processRejectAtTransfer sender now tid s = .ok s') :
    s.paused = false ∧ (s.transactions tid).id ≠ 0 ∧
    (s.transactions tid).seller = sender ∧
    (s.transactions tid).status = .Pending ∧
    s' = processRejectBook tid s := by
  unfold processRejectAtTransfer at h
  split at h
  next hp => exact Except.noConfusion h
  next hp =>
    split at h
    next hid => exact Except.noConfusion h
    next hid =>
      dsimp only at h
      split at h
      next hsell =>
        split at h
        next hst =>
          simp only [Except.ok.injEq] at h
          exact ⟨by simpa using hp, hid, hsell, hst, h.symm⟩
        next hst => exact Except.noConfusion h
      next hsell => exact Except.noConfusion h

/-- Inversion of a successful `removeFromSale`. -/
theorem removeFromSale_ok {sender now pid : Nat} {s s' : LRState}
    (h : removeFromSale sender now pid s = .ok s') :
    (s.properties pid).owner = sender ∧ (s.properties pid).id ≠ 0 ∧
    (s.properties pid).isActive = true ∧
    ((s.properties pid).status = .ListedForSale ∨
      (s.properties pid).status = .SaleInProgress) ∧
    s'.properties pid =
      { s.properties pid with status := PropertyStatus.Approved, lastUpdated := now } ∧
    s'.paused = s.paused := by
  unfold removeFromSale at h
  split at h
  next hown =>
    split at h
    next hid => exact Except.noConfusion h
    next hid =>
      split at h
      next hact =>
        dsimp only at h
        split at h
        next hst =>
          simp only [Except.ok.injEq] at h
          subst h
          exact ⟨hown, hid, hact, hst, by simp [upd], rfl⟩
        next hst => exact Except.noConfusion h
      next hact => exact Except.noConfusion h
  next hown => exact Except.noConfusion h

/-! ## Lemmas about the swap-with-last removal -/

theorem findFirstIndex_none {a : Nat} {l : List Nat}
    (h : findFirstIndex a l = none) : a ∉ l := by
  induction l with
  | nil => simp
  | cons x xs ih =>
    unfold findFirstIndex at h
    split at h
    next hx => exact Option.noConfusion h
    next hx =>
      simp only [Option.map_eq_none'] at h
      simp only [List.mem_cons, not_or]
      exact ⟨fun he => hx he.symm, ih h⟩

theorem findFirstIndex_spec {a : Nat} {l : List Nat} {i : Nat}
    (h : findFirstIndex a l = some i) :
    i < l.length ∧ l.getD i 0 = a ∧ ∀ j, j < i → l.getD j 0 ≠ a := by
  induction l generalizing i with
  | nil => exact Option.noConfusion h
  | cons x xs ih =>
    unfold findFirstIndex at h
    split at h
    next hx =>
      cases h
      refine ⟨by simp, by simpa using hx, ?_⟩
      intro j hj
      omega
    next hx =>
      cases hfx : findFirstIndex a xs with
      | none => rw [hfx] at h; exact Option.noConfusion h
      | some k =>
        rw [hfx] at h
        simp only [Option.map_some', Option.some.injEq] at h
        obtain ⟨h1, h2, h3⟩ := ih hfx
        subst h
        refine ⟨by simp; omega, by simpa using h2, ?_⟩
        intro j hj
        cases j with
        | zero => simpa using hx
        | succ j2 => simpa using h3 j2 (by omega)

/-- On a duplicate-free list, swap-with-last removal of `a` really removes
`a`. -/
theorem swapPopRemove_not_mem {a : Nat} {l : List Nat} (hnd : l.Nodup) :
    a ∉ swapPopRemove a l := by
  unfold swapPopRemove
  cases hf : findFirstIndex a l with
  | none => exact findFirstIndex_none hf
  | some i =>
    obtain ⟨hi, hget, _⟩ := findFirstIndex_spec hf
    intro hmem
    obtain ⟨j, hj, hjv⟩ := List.mem_iff_getElem.mp hmem
    have hjlen : j < l.length - 1 := by simpa using hj
    rw [List.getElem_dropLast] at hjv
    rw [List.getElem_set] at hjv
    have hlast := List.getD_eq_getElem l 0 (show l.length - 1 < l.length by omega)
    have hia : l[i] = a := by rw [← List.getD_eq_getElem l 0 hi]; exact hget
    by_cases hij : i = j
    · rw [if_pos hij, hlast] at hjv
      have heq : l.length - 1 = i :=
        (hnd.getElem_inj_iff).mp (hjv.trans hia.symm)
      omega
    · rw [if_neg hij] at hjv
      have hji : j = i := (hnd.getElem_inj_iff).mp (hjv.trans hia.symm)
      exact hij hji.symm

/-- Whatever swap-with-last removal produces was already in the list. -/
theorem swapPopRemove_subset {a x : Nat} {l : List Nat}
    (h : x ∈ swapPopRemove a l) : x ∈ l := by
  unfold swapPopRemove at h
  cases hf : findFirstIndex a l with
  | none => rw [hf] at h; exact h
  | some i =>
    rw [hf] at h
    obtain ⟨j, hj, hjv⟩ := List.mem_iff_getElem.mp h
    have hjlen : j < l.length - 1 := by simpa using hj
    rw [List.getElem_dropLast] at hjv
    rw [List.getElem_set] at hjv
    by_cases hij : i = j
    · rw [if_pos hij] at hjv
      subst hjv
      have : l.length - 1 < l.length := by omega
      rw [List.getD_eq_getElem l 0 this]
      exact List.getElem_mem this
    · rw [if_neg hij] at hjv
      subst hjv
      exact List.getElem_mem (by omega)

/-! ## Projection lemmas for the decomposed fund-moving operations -/

theorem completePurchaseBook_transactions (now tid : Nat) (s : LRState) :
    (completePurchaseBook now tid s).transactions = s.transactions := by
  unfold completePurchaseBook
  dsimp only
  split <;> rfl

theorem completePurchaseBook_transfersOut (now tid : Nat) (s : LRState) :
    (completePurchaseBook now tid s).transfersOut = s.transfersOut := by
  unfold completePurchaseBook
  dsimp only
  split <;> rfl

theorem completePurchaseBook_owner (now tid : Nat) (s : LRState) :
    ((completePurchaseBook now tid s).properties (s.transactions tid).propertyId).owner
      = (s.transactions tid).buyer := by
  unfold completePurchaseBook
  dsimp only
  split <;> simp [upd]

theorem completePurchaseBook_status (now tid : Nat) (s : LRState) :
    ((completePurchaseBook now tid s).properties (s.transactions tid).propertyId).status
      = PropertyStatus.Approved := by
  unfold completePurchaseBook
  dsimp only
  split <;> simp [upd]

theorem completePurchaseBook_ownerProps (now tid : Nat) (s : LRState) :
    (completePurchaseBook now tid s).ownerProperties =
      upd (upd s.ownerProperties (s.properties (s.transactions tid).propertyId).owner
          (swapPopRemove (s.transactions tid).propertyId
            (s.ownerProperties (s.properties (s.transactions tid).propertyId).owner)))
        (s.transactions tid).buyer
        ((upd s.ownerProperties (s.properties (s.transactions tid).propertyId).owner
          (swapPopRemove (s.transactions tid).propertyId
            (s.ownerProperties (s.properties (s.transactions tid).propertyId).owner)))
          (s.transactions tid).buyer ++ [(s.transactions tid).propertyId]) := by
  unfold completePurchaseBook
  dsimp only
  split <;> rfl

/-! ## Claim theorems -/

/-- C7: End-to-end sale scenario (Scenario A).  From the empty registry:
register property 1 to Alice (2) at market value 100, superadmin approves,
Alice lists at 150, Bob (3) requests at price 150 escrowing 150, Alice
approves the request, Bob completes.  Afterwards the property is owned by
Bob, has market value 150 and status Approved, and the transaction is
Completed. -/
theorem scenarioA_end_to_end :
    ((registerProperty 2 10 "KA" "BLR" "V1" "SN1" 2 100 "h1" st0).map Prod.fst >>=
      approveProperty 1 11 1 true >>= listPropertyForSale 2 12 1 150 >>=
      requestToPurchase 3 13 150 1 150 "h2" >>= processPurchaseRequest 2 14 1 true >>=
      completePurchase 3 15 1).map
      (fun s => ((s.properties 1).owner, (s.properties 1).marketValue,
        (s.properties 1).status, (s.transactions 1).status)) =
    .ok (3, 150, .Approved, .Completed) := by
  rfl

/-- C9: a successful `removeFromSale` leaves the property with status
Approved, and an immediately repeated call by the same owner fails with
`InvalidState` (in the model a failed call produces no state at all,
matching the revert semantics that leaves the state unchanged). -/
theorem removeFromSale_second_call_invalidState {sender now now2 pid : Nat}
    {s s' : LRState} (h : removeFromSale sender now pid s = .ok s') :
    (s'.properties pid).status = .Approved ∧
    removeFromSale sender now2 pid s' = .error .invalidState := by
  obtain ⟨hown, hid, hact, hst, hprop, hpz⟩ := removeFromSale_ok h
  refine ⟨by rw [hprop], ?_⟩
  simp [removeFromSale, hprop, hown, hid, hact]

/-- C9 witness: Alice removes property 1 from sale while Bob's request is
pending; the second removal attempt fails with `InvalidState`. -/
theorem removeFromSale_second_call_invalidState_witness :
    (stRm.properties 1).status = .Approved ∧
    removeFromSale 2 99 1 stRm = .error .invalidState :=
  removeFromSale_second_call_invalidState
    (show removeFromSale 2 15 1 stRequested = .ok stRm from rfl)

/-- C10: `completePurchase` checks only that the system is unpaused, the
transaction exists, its status is Approved and the caller is its buyer; no
hypothesis about the referenced property's status or active flag is
needed, and the buyer always obtains ownership. -/
theorem completePurchase_ignores_property_state {sender now tid : Nat}
    {s : LRState} (hp : s.paused = false) (hid : (s.transactions tid).id ≠ 0)
    (hst : (s.transactions tid).status = .Approved)
    (hbuy : (s.transactions tid).buyer = sender) :
    ∃ s', completePurchase sender now tid s = .ok s' ∧
      (s'.properties (s.transactions tid).propertyId).owner = sender := by
  refine ⟨completePurchaseFinish now tid (sendValue (s.transactions tid).seller
    (s.transactions tid).price (completePurchaseBook now tid s)), ?_, ?_⟩
  · unfold completePurchase
    simp [hp, hid, hst, hbuy]
  · have hfin : (completePurchaseFinish now tid (sendValue (s.transactions tid).seller
        (s.transactions tid).price (completePurchaseBook now tid s))).properties
        = (completePurchaseBook now tid s).properties := rfl
    rw [hfin, completePurchaseBook_owner, hbuy]

/-- C10 witness: after Alice removed property 1 from sale (status back to
Approved, transaction 1 still Approved), Bob can still complete the
purchase and seize ownership. -/
theorem completePurchase_ignores_property_state_witness :
    (stOrphan.properties 1).status = .Approved ∧
    (∃ s', completePurchase 3 40 1 stOrphan = .ok s' ∧
      (s'.properties (stOrphan.transactions 1).propertyId).owner = 3) :=
  ⟨rfl, @completePurchase_ignores_property_state 3 40 1 stOrphan rfl
    (by decide) rfl rfl⟩

/-- C1 counterexample: with the system paused, `removeFromSale`,
`updatePropertyDocuments` (on the listed property 1) and `approveProperty`
(on the still-pending property of the second paused state) all succeed
instead of failing with Paused: these three entry points have no
`whenNotPaused` modifier. -/
theorem paused_mutators_still_succeed :
    stPaused.paused = true ∧
    (removeFromSale 2 40 1 stPaused).isOk = true ∧
    (updatePropertyDocuments 2 40 1 "hx" stPaused).isOk = true ∧
    stPausedPending.paused = true ∧
    (approveProperty 1 40 1 true stPausedPending).isOk = true := by
  refine ⟨rfl, rfl, rfl, rfl, rfl⟩

/-- C2 counterexample: Bob escrows 200 for an offered price of 150; on
rejection he is refunded only the recorded price 150, and the remaining 50
stays in the contract — the refund is not the escrowed amount and value is
retained by the workflow. -/
theorem reject_refund_differs_from_escrow :
    stReq200.balance = 200 ∧
    (stRej200.transactions 1).status = .Rejected ∧
    stRej200.transfersOut = [(3, 150)] ∧
    stRej200.balance = 50 ∧ (50 : Nat) ≠ 0 := by
  refine ⟨rfl, rfl, rfl, rfl, by decide⟩

/-- C3 counterexample: at the moment `completePurchase` performs the
external payment, the transaction is still Approved with its old
completion stamp, while the final state has it Completed: the completion
bookkeeping is written only after the fund movement, so the transfer is
not the terminal side effect. -/
theorem completion_marking_after_transfer :
    (completePurchaseAtTransfer 3 15 1 stTxApproved).map
      (fun s => (s.transactions 1).status) = .ok .Approved ∧
    (completePurchase 3 15 1 stTxApproved).map
      (fun s => (s.transactions 1).status) = .ok .Completed := by
  exact ⟨rfl, rfl⟩

/-- C4 counterexample: Bob requests purchase (transaction 1, Pending),
Alice removes the property from sale and relists it, Carol requests again
(transaction 2): two transactions referencing property 1 are Pending at
the same reachable state. -/
theorem two_pending_transactions_reachable :
    (stTwoPending.transactions 1).status = .Pending ∧
    (stTwoPending.transactions 1).propertyId = 1 ∧
    (stTwoPending.transactions 2).status = .Pending ∧
    (stTwoPending.transactions 2).propertyId = 1 := by
  refine ⟨rfl, rfl, rfl, rfl⟩

/-- C5 counterexample: user 5 holds the Government (Approver) role but not
Superadmin; their `approveProperty` call on the pending, active property 1
is rejected as Unauthorized. -/
theorem government_approver_rejected :
    stGov.hasGovernmentRole 5 = true ∧
    stGov.hasSuperadminRole 5 = false ∧
    (stGov.properties 1).status = .Pending ∧
    (stGov.properties 1).isActive = true ∧
    approveProperty 5 40 1 true stGov = .error .unauthorized := by
  refine ⟨rfl, rfl, rfl, rfl, rfl⟩

/-- C6 counterexample: after the seller approves Bob's request at time 14,
the transaction has status Approved yet its `completedAt` is already 14,
not zero: `processPurchaseRequest` stamps `completedAt` in the approve
branch too. -/
theorem completedAt_nonzero_in_approved :
    (stTxApproved.transactions 1).status = .Approved ∧
    (stTxApproved.transactions 1).completedAt = 14 ∧ (14 : Nat) ≠ 0 := by
  refine ⟨rfl, rfl, by decide⟩

/-- C8 counterexample: via remove-and-relist, Bob gets two Approved
transactions for property 1 and completes both; at the second completion
the old owner IS the buyer (Bob), the call succeeds, and afterwards the
old owner's index still contains the sold property id. -/
theorem old_owner_keeps_property_when_rebuying :
    (stBobOwns.properties 1).owner = 3 ∧
    (stBobOwns.transactions 2).buyer = 3 ∧
    (stBobOwns.transactions 2).propertyId = 1 ∧
    (completePurchase 3 21 2 stBobOwns).isOk = true ∧
    1 ∈ getOwnerProperties 3 stBobRebuys := by
  refine ⟨rfl, rfl, rfl, rfl, by decide⟩

/-- C1 (amended): when the pause flag is set, exactly the five entry
points carrying `whenNotPaused` (`registerProperty`, `listPropertyForSale`,
`requestToPurchase`, `processPurchaseRequest`, `completePurchase`) fail
fast with Paused; `approveProperty`, `removeFromSale` and
`updatePropertyDocuments` do not consult the flag and still succeed when
their own guards hold; read-only queries remain available. -/
theorem pause_gating_amended (s : LRState) (h : s.paused = true) :
    (∀ sender now a b c d ow mv ip,
      registerProperty sender now a b c d ow mv ip s = .error .paused) ∧
    (∀ sender now pid price,
      listPropertyForSale sender now pid price s = .error .paused) ∧
    (∀ sender now mv pid price ip,
      requestToPurchase sender now mv pid price ip s = .error .paused) ∧
    (∀ sender now tid apr,
      processPurchaseRequest sender now tid apr s = .error .paused) ∧
    (∀ sender now tid, completePurchase sender now tid s = .error .paused) ∧
    (∀ sender now pid apr, s.hasSuperadminRole sender = true →
      (s.properties pid).id ≠ 0 → (s.properties pid).isActive = true →
      (s.properties pid).status = .Pending →
      (approveProperty sender now pid apr s).isOk = true) ∧
    (∀ sender now pid, (s.properties pid).owner = sender →
      (s.properties pid).id ≠ 0 → (s.properties pid).isActive = true →
      ((s.properties pid).status = .ListedForSale ∨
        (s.properties pid).status = .SaleInProgress) →
      (removeFromSale sender now pid s).isOk = true) ∧
    (∀ sender now pid ip, (s.properties pid).owner = sender →
      (s.properties pid).id ≠ 0 → (s.properties pid).isActive = true →
      (updatePropertyDocuments sender now pid ip s).isOk = true) ∧
    (∀ ow, getOwnerProperties ow s = s.ownerProperties ow) := by
  refine ⟨?_, ?_, ?_, ?_, ?_, ?_, ?_, ?_, fun ow => rfl⟩
  · intro sender now a b c d ow mv ip
    simp [registerProperty, h]
  · intro sender now pid price
    simp [listPropertyForSale, h]
  · intro sender now mv pid price ip
    simp [requestToPurchase, h]
  · intro sender now tid apr
    simp [processPurchaseRequest, h]
  · intro sender now tid
    simp [completePurchase, h]
  · intro sender now pid apr hsup hid hact hst
    simp [approveProperty, hsup, hid, hact, hst, Except.isOk, Except.toBool]
  · intro sender now pid hown hid hact hst
    simp [removeFromSale, hown, hid, hact, hst, Except.isOk, Except.toBool]
  · intro sender now pid ip hown hid hact
    simp [updatePropertyDocuments, hown, hid, hact, Except.isOk, Except.toBool]

/-- C1 witness: applied to the concretely paused state. -/
theorem pause_gating_amended_witness :
    stPaused.paused = true ∧
    registerProperty 9 50 "a" "b" "c" "d" 7 5 "h" stPaused = .error .paused :=
  ⟨rfl, (pause_gating_amended stPaused rfl).1 9 50 "a" "b" "c" "d" 7 5 "h"⟩

/-- C2 (amended): the reject branch of `processPurchaseRequest` transfers
to the buyer exactly the transaction's recorded price (and the contract
balance drops by that amount), while `requestToPurchase` collects the full
`msg.value` into the contract with the recorded price at most that value:
the refund equals the escrow only when `msg.value` equals the offered
price; any excess escrow is retained by the contract. -/
theorem reject_refunds_recorded_price :
    (∀ sender now tid s s2, processPurchaseRequest sender now tid false s = .ok s2 →
      s2.transfersOut = s.transfersOut ++
        [((s.transactions tid).buyer, (s.transactions tid).price)] ∧
      s2.balance = s.balance - (s.transactions tid).price) ∧
    (∀ sender now mv pid price ip s s2,
      requestToPurchase sender now mv pid price ip s = .ok s2 →
      s2.balance = s.balance + mv ∧
      (s2.transactions (s.transactionIds + 1)).price = price ∧ price ≤ mv) := by
  constructor
  · intro sender now tid s s2 h
    obtain ⟨-, -, -, -, hs2⟩ := processReject_ok h
    subst hs2
    exact ⟨rfl, rfl⟩
  · intro sender now mv pid price ip s s2 h
    obtain ⟨-, -, -, -, -, hval, -, -, hbal, -, -, -, htx⟩ := requestToPurchase_ok h
    exact ⟨hbal, by rw [htx], hval⟩

/-- C2 witness: the over-escrowed rejected purchase. -/
theorem reject_refunds_recorded_price_witness :
    stRej200.transfersOut = stReq200.transfersOut ++
      [((stReq200.transactions 1).buyer, (stReq200.transactions 1).price)] ∧
    stRej200.balance = stReq200.balance - (stReq200.transactions 1).price :=
  reject_refunds_recorded_price.1 2 14 1 stReq200 stRej200 rfl

/-- C3 (amended): in both fund-moving operations the property record,
ownership index and property status updates are committed before the
external transfer, but the transaction's completion bookkeeping
(`completedAt`, and for `completePurchase` the `Completed` status) — and
the `lastUpdated` stamps — are written only after the transfer, so the
fund release is not the terminal side effect of the call. -/
theorem effects_before_transfer_amended :
    (∀ sender now tid s sT sF,
      completePurchaseAtTransfer sender now tid s = .ok sT →
      completePurchase sender now tid s = .ok sF →
      (sT.properties (s.transactions tid).propertyId).owner = (s.transactions tid).buyer ∧
      (sT.transactions tid).status = .Approved ∧
      (sT.transactions tid).completedAt = (s.transactions tid).completedAt ∧
      sF.properties = sT.properties ∧
      sF.ownerProperties = sT.ownerProperties ∧
      sF.transfersOut = sT.transfersOut ++ [((s.transactions tid).seller, (s.transactions tid).price)] ∧
      sF.transactions tid = { sT.transactions tid with status := TransactionStatus.Completed, completedAt := now }) ∧
    (∀ sender now tid s sT sF,
      processRejectAtTransfer sender now tid s = .ok sT →
      processPurchaseRequest sender now tid false s = .ok sF →
      (sT.transactions tid).status = .Rejected ∧
      (sT.properties (s.transactions tid).propertyId).status = .ListedForSale ∧
      (sT.transactions tid).completedAt = (s.transactions tid).completedAt ∧
      (sF.transactions tid).completedAt = now ∧
      sF.transfersOut = sT.transfersOut ++ [((s.transactions tid).buyer, (s.transactions tid).price)]) := by
  constructor
  · intro sender now tid s sT sF hT hF
    obtain ⟨-, -, hst, -, hsT⟩ := completePurchaseAtTransfer_ok hT
    obtain ⟨-, -, -, -, hsF⟩ := completePurchase_ok hF
    subst hsT
    subst hsF
    refine ⟨completePurchaseBook_owner now tid s, ?_, ?_, rfl, rfl, rfl, ?_⟩
    · rw [completePurchaseBook_transactions]
      exact hst
    · rw [completePurchaseBook_transactions]
    · simp [completePurchaseFinish, sendValue, upd]
  · intro sender now tid s sT sF hT hF
    obtain ⟨-, -, -, -, hsT⟩ := processRejectAtTransfer_ok hT
    obtain ⟨-, -, -, -, hsF⟩ := processReject_ok hF
    subst hsT
    subst hsF
    refine ⟨?_, ?_, ?_, ?_, rfl⟩
    · simp [processRejectBook, upd]
    · simp [processRejectBook, upd]
    · simp [processRejectBook, upd]
    · simp [processFinish, processRejectBook, sendValue, upd]

/-- C3 witness: the concrete completion of transaction 1. -/
theorem effects_before_transfer_amended_witness :
    (stAtTransfer.properties (stTxApproved.transactions 1).propertyId).owner =
      (stTxApproved.transactions 1).buyer ∧
    (stAtTransfer.transactions 1).status = .Approved :=
  ⟨(effects_before_transfer_amended.1 3 15 1 stTxApproved stAtTransfer stDone rfl rfl).1,
   (effects_before_transfer_amended.1 3 15 1 stTxApproved stAtTransfer stDone rfl rfl).2.1⟩

/-- C4 (amended): the SaleInProgress gate only blocks further purchase
requests while the property stays in SaleInProgress: a successful request
requires status ListedForSale, drives the property to SaleInProgress, and
an immediately following request on the new state fails with
`InvalidState`.  (It does not give the global at-most-one-live-transaction
invariant: `removeFromSale` plus relisting reopens requests without
cancelling the pending transaction.) -/
theorem saleInProgress_gating_amended {sender now msgValue pid price : Nat}
    {ipfs : String} {s s2 : LRState}
    (h : requestToPurchase sender now msgValue pid price ipfs s = .ok s2) :
    (s.properties pid).status = .ListedForSale ∧
    (s2.properties pid).status = .SaleInProgress ∧
    (∀ sender2 now2 mv2 price2 ip2,
      requestToPurchase sender2 now2 mv2 pid price2 ip2 s2 = .error .invalidState) := by
  obtain ⟨hp, hid, hact, hst, -, -, -, hpz, -, -, -, hprop, -⟩ := requestToPurchase_ok h
  refine ⟨hst, by rw [hprop], ?_⟩
  intro sender2 now2 mv2 price2 ip2
  have hid2 : (s2.properties pid).id ≠ 0 := by rw [hprop]; exact hid
  have hact2 : (s2.properties pid).isActive = true := by rw [hprop]; exact hact
  have hst2 : (s2.properties pid).status = .SaleInProgress := by rw [hprop]
  have hp2 : s2.paused = false := by rw [hpz]; exact hp
  simp [requestToPurchase, hp2, hid2, hact2, hst2]

/-- C4 witness: Bob's concrete request on the listed property. -/
theorem saleInProgress_gating_amended_witness :
    (stRequested.properties 1).status = .SaleInProgress ∧
    requestToPurchase 4 99 500 1 500 "z" stRequested = .error .invalidState :=
  ⟨(saleInProgress_gating_amended
      (show requestToPurchase 3 13 150 1 150 "h2" stListed = .ok stRequested from rfl)).2.1,
   (saleInProgress_gating_amended
      (show requestToPurchase 3 13 150 1 150 "h2" stListed = .ok stRequested from rfl)).2.2
      4 99 500 500 "z"⟩

/-- C5 (amended): `approveProperty` demands the Superadmin capability
specifically: any caller without it — including one holding only the
Government/Approver role — is rejected as Unauthorized, while a Superadmin
caller succeeds on an existing, active, Pending property. -/
theorem approveProperty_superadmin_only :
    (∀ sender now pid apr s, s.hasSuperadminRole sender = false →
      approveProperty sender now pid apr s = .error .unauthorized) ∧
    (∀ sender now pid apr s, s.hasSuperadminRole sender = true →
      (s.properties pid).id ≠ 0 → (s.properties pid).isActive = true →
      (s.properties pid).status = .Pending →
      (approveProperty sender now pid apr s).isOk = true) := by
  constructor
  · intro sender now pid apr s hsup
    simp [approveProperty, hsup]
  · intro sender now pid apr s hsup hid hact hst
    simp [approveProperty, hsup, hid, hact, hst, Except.isOk, Except.toBool]

/-- C5 witness: the Government-role user is refused; the superadmin
succeeds on the same pending property. -/
theorem approveProperty_superadmin_only_witness :
    approveProperty 5 41 1 true stGov = .error .unauthorized ∧
    (approveProperty 1 41 1 true stReg).isOk = true :=
  ⟨approveProperty_superadmin_only.1 5 41 1 true stGov rfl,
   approveProperty_superadmin_only.2 1 41 1 true stReg rfl (by decide) rfl rfl⟩

/-- C6 (amended): a new transaction starts Pending with `completedAt` 0,
but `processPurchaseRequest` stamps `completedAt` with the current time in
BOTH branches, so an Approved (not yet completed) transaction already has
a non-zero completion timestamp whenever the block timestamp is
non-zero. -/
theorem completedAt_amended :
    (∀ sender now mv pid price ip s s2,
      requestToPurchase sender now mv pid price ip s = .ok s2 →
      (s2.transactions (s.transactionIds + 1)).status = .Pending ∧
      (s2.transactions (s.transactionIds + 1)).completedAt = 0) ∧
    (∀ sender now tid apr s s2, processPurchaseRequest sender now tid apr s = .ok s2 →
      (s2.transactions tid).completedAt = now) := by
  constructor
  · intro sender now mv pid price ip s s2 h
    obtain ⟨-, -, -, -, -, -, -, -, -, -, -, -, htx⟩ := requestToPurchase_ok h
    rw [htx]
    exact ⟨rfl, rfl⟩
  · intro sender now tid apr s s2 h
    cases apr with
    | true =>
      obtain ⟨-, -, -, -, hs2⟩ := processApprove_ok h
      subst hs2
      simp [processFinish, processApproveBook, upd]
    | false =>
      obtain ⟨-, -, -, -, hs2⟩ := processReject_ok h
      subst hs2
      simp [processFinish, processRejectBook, sendValue, upd]

/-- C6 witness: Bob's fresh request has `completedAt` 0; after the
approval at time 14 the Approved transaction carries `completedAt` 14. -/
theorem completedAt_amended_witness :
    (stRequested.transactions (stListed.transactionIds + 1)).completedAt = 0 ∧
    (stTxApproved.transactions 1).completedAt = 14 :=
  ⟨(completedAt_amended.1 3 13 150 1 150 "h2" stListed stRequested rfl).2,
   completedAt_amended.2 2 14 1 true stRequested stTxApproved rfl⟩

/-- C8 (amended): after a successful `completePurchase`, provided the old
owner is a different identity than the buyer and the old owner's index is
duplicate-free (both hold in ordinary operation, but can fail on the
reachable orphaned-transaction states), the old owner's index no longer
contains the sold property id and the buyer's index does contain it. -/
theorem ownerIndex_roundtrip_amended {sender now tid : Nat} {s s2 : LRState}
    (h : completePurchase sender now tid s = .ok s2)
    (hdiff : (s.properties (s.transactions tid).propertyId).owner ≠ (s.transactions tid).buyer)
    (hnd : (s.ownerProperties (s.properties (s.transactions tid).propertyId).owner).Nodup) :
    (s.transactions tid).propertyId ∉
      getOwnerProperties (s.properties (s.transactions tid).propertyId).owner s2 ∧
    (s.transactions tid).propertyId ∈
      getOwnerProperties (s.transactions tid).buyer s2 := by
  obtain ⟨-, -, -, -, hs2⟩ := completePurchase_ok h
  subst hs2
  have hOP : (completePurchaseFinish now tid (sendValue (s.transactions tid).seller
      (s.transactions tid).price (completePurchaseBook now tid s))).ownerProperties
      = (completePurchaseBook now tid s).ownerProperties := rfl
  unfold getOwnerProperties
  rw [hOP, completePurchaseBook_ownerProps]
  constructor
  · rw [upd_ne _ _ hdiff, upd_self]
    exact swapPopRemove_not_mem hnd
  · rw [upd_self]
    exact List.mem_append_right _ (List.mem_singleton_self _)

/-- C8 witness: Bob's ordinary completion of transaction 1 (Alice ≠ Bob,
Alice's index is [1]). -/
theorem ownerIndex_roundtrip_amended_witness :
    (stTxApproved.transactions 1).propertyId ∉
      getOwnerProperties (stTxApproved.properties (stTxApproved.transactions 1).propertyId).owner stDone ∧
    (stTxApproved.transactions 1).propertyId ∈
      getOwnerProperties (stTxApproved.transactions 1).buyer stDone :=
  @ownerIndex_roundtrip_amended 3 15 1 stTxApproved stDone rfl (by decide) (by decide)

end LandRegistry
